import Mathlib

/-!
Verification of the core of the cursor-provider-bridge extension: a shallow
embedding, in Lean, of the ProxyServer request pipeline, the LLMModelProvider
upstream client (including its incremental stream parser), and the
NgrokTunnelManager lifecycle state machine, together with theorems settling
the specified behavioural properties.

Conventions of the embedding:
* JavaScript strings are modelled by Lean `String` (all inputs of interest are
  ASCII, so UTF-16 versus scalar-value indexing does not matter).
* Values produced by `JSON.parse` are dynamically typed, so they are modelled
  by an explicit `Json` data type; property access on a non-object yields
  `none` (JavaScript `undefined`), matching primitive property access.
* `async` functions that can reject are modelled as functions returning
  `Except`; a JavaScript environment choice (network outcome, port state,
  timer race) is an explicit argument of the modelled function.
-/

set_option maxRecDepth 8192

namespace CursorBridge

/-! ## String helpers: JavaScript `includes`, `startsWith`, `trim`, `toLowerCase` -/

/-- Is the first list a prefix of the second (decidable, by direct recursion)? -/
def charsLead : List Char → List Char → Bool
  | [], _ => true
  | _ :: _, [] => false
  | p :: ps, c :: cs => p == c && charsLead ps cs

/-- Does `pat` occur as a contiguous run inside the list? -/
def charsInside (pat : List Char) : List Char → Bool
  | [] => pat.isEmpty
  | c :: cs => charsLead pat (c :: cs) || charsInside pat cs

/-- Model of JavaScript `s.includes(pat)`. -/
def strIncludes (s pat : String) : Bool := charsInside pat.data s.data

/-- Model of JavaScript `s.startsWith(pat)`. -/
def strStarts (s pat : String) : Bool := charsLead pat.data s.data

/-- Model of JavaScript `s.endsWith(pat)`. -/
def strEnds (s pat : String) : Bool := charsLead pat.data.reverse s.data.reverse

/-- Model of JavaScript `s.toLowerCase()` (ASCII range; the ids compared in the
source are ASCII). -/
def lowerStr (s : String) : String := String.mk (s.data.map Char.toLower)

/-- JavaScript whitespace for `trim` (the characters that occur in the event
stream: space, tab, carriage return, newline). -/
def jsWs (c : Char) : Bool := [' ', '\t', '\n', '\r'].contains c

/-- Model of JavaScript `s.trim()`. -/
def jsTrim (s : String) : String :=
  String.mk (((s.data.dropWhile (jsWs ·)).reverse.dropWhile (jsWs ·)).reverse)

/-- Model of JavaScript `s.substring(n)` (drop the first `n` characters). -/
def strDropn (s : String) (n : Nat) : String := String.mk (s.data.drop n)

/-- `charsLead` decides the prefix relation. -/
theorem charsLead_iff (p l : List Char) : charsLead p l = true ↔ p <+: l := by
  induction p generalizing l with
  | nil => simp [charsLead]
  | cons a ps ih =>
    cases l with
    | nil => simp [charsLead]
    | cons c cs =>
      simp only [charsLead, Bool.and_eq_true, beq_iff_eq, ih, List.cons_prefix_cons]

/-- `charsInside` decides the infix relation. -/
theorem charsInside_iff (p l : List Char) : charsInside p l = true ↔ p <:+: l := by
  induction l with
  | nil =>
    simp only [charsInside, List.isEmpty_iff]
    constructor
    · rintro rfl; exact List.infix_rfl
    · intro h; exact List.eq_nil_of_infix_nil h
  | cons c cs ih =>
    simp only [charsInside, Bool.or_eq_true, charsLead_iff, ih]
    constructor
    · rintro (h | h)
      · exact h.isInfix
      · exact h.trans (List.suffix_cons c cs).isInfix
    · intro h
      rcases (List.infix_cons_iff).mp h with h | h
      · exact Or.inl h
      · exact Or.inr h

/-! ## Dynamic JSON values

`JSON.parse` produces dynamically typed values; the TypeScript code casts them
without validating, so the embedding keeps them as a `Json` tree. Arrays and
objects are separate mutually inductive types so that every function on them is
structurally recursive (and hence evaluates by kernel reduction). Numbers keep
their source token verbatim: no property settled here depends on numeric
value. -/

mutual

inductive Json where
  | null : Json
  | jbool (b : Bool) : Json
  | num (raw : String) : Json
  | str (s : String) : Json
  | arr (elems : JsonArr) : Json
  | obj (fields : JsonObj) : Json

inductive JsonArr where
  | nil : JsonArr
  | cons (head : Json) (tail : JsonArr) : JsonArr

inductive JsonObj where
  | nil : JsonObj
  | cons (key : String) (val : Json) (tail : JsonObj) : JsonObj

end

/-- First binding of a key in an object (JavaScript objects hold one binding
per key; the parser below keeps that invariant by overwriting duplicates). -/
def JsonObj.get : JsonObj → String → Option Json
  | .nil, _ => none
  | .cons k v rest, key => if k = key then some v else rest.get key

/-- Model of JavaScript property access `value[key]` on a parsed JSON value:
`undefined` (here `none`) on any non-object. -/
def jGet (j : Json) (key : String) : Option Json :=
  match j with
  | .obj fields => fields.get key
  | _ => none

/-- Replace the value of a key in place, or append the binding: exactly the
effect of the object spread `\x7b...base, key: v\x7d` on an object without
duplicate keys. -/
def JsonObj.setField : JsonObj → String → Json → JsonObj
  | .nil, key, v => .cons key v .nil
  | .cons k w rest, key, v =>
    if k = key then .cons k v rest else .cons k w (rest.setField key v)

/-- `jSet j key v` is the object spread `\x7b...j, key: v\x7d` (only applied to
objects in the source). -/
def jSet (j : Json) (key : String) (v : Json) : Json :=
  match j with
  | .obj fields => .obj (fields.setField key v)
  | other => other

def JsonArr.length : JsonArr → Nat
  | .nil => 0
  | .cons _ rest => 1 + rest.length

/-- Indexing `xs[i]` into a parsed JSON array. -/
def JsonArr.get : JsonArr → Nat → Option Json
  | .nil, _ => none
  | .cons x _, 0 => some x
  | .cons _ rest, n + 1 => rest.get n

def JsonArr.toList : JsonArr → List Json
  | .nil => []
  | .cons x rest => x :: rest.toList

/-! ## A model of `JSON.parse`

A recursive-descent parser over the character list, with a fuel argument so
that all recursion is structural. The grammar is the JSON grammar that
`JSON.parse` accepts: `null`/`true`/`false`, strict number tokens, strings
with escapes, arrays and objects; any other input is a `SyntaxError`,
modelled as `none`. -/

def jsonWsChars : List Char → List Char
  | c :: cs => if jsWs c then jsonWsChars cs else c :: cs
  | [] => []

def hexVal (c : Char) : Option Nat :=
  if '0' ≤ c ∧ c ≤ '9' then some (c.toNat - '0'.toNat)
  else if 'a' ≤ c ∧ c ≤ 'f' then some (c.toNat - 'a'.toNat + 10)
  else if 'A' ≤ c ∧ c ≤ 'F' then some (c.toNat - 'A'.toNat + 10)
  else none

/-- Body of a JSON string after the opening quote: returns the decoded
characters and the rest of the input after the closing quote. -/
def parseStrBody : List Char → Option (List Char × List Char)
  | [] => none
  | '"' :: cs => some ([], cs)
  | '\\' :: e :: cs =>
    match e with
    | '"' => (parseStrBody cs).map (fun p => ('"' :: p.1, p.2))
    | '\\' => (parseStrBody cs).map (fun p => ('\\' :: p.1, p.2))
    | '/' => (parseStrBody cs).map (fun p => ('/' :: p.1, p.2))
    | 'b' => (parseStrBody cs).map (fun p => ('\x08' :: p.1, p.2))
    | 'f' => (parseStrBody cs).map (fun p => ('\x0c' :: p.1, p.2))
    | 'n' => (parseStrBody cs).map (fun p => ('\n' :: p.1, p.2))
    | 'r' => (parseStrBody cs).map (fun p => ('\r' :: p.1, p.2))
    | 't' => (parseStrBody cs).map (fun p => ('\t' :: p.1, p.2))
    | 'u' =>
      match cs with
      | h1 :: h2 :: h3 :: h4 :: rest =>
        match hexVal h1, hexVal h2, hexVal h3, hexVal h4 with
        | some a, some b, some c, some d =>
          let n := ((a * 16 + b) * 16 + c) * 16 + d
          (parseStrBody rest).map (fun p => (Char.ofNat n :: p.1, p.2))
        | _, _, _, _ => none
      | _ => none
    | _ => none
  | c :: cs =>
    if c.toNat < 32 then none
    else (parseStrBody cs).map (fun p => (c :: p.1, p.2))

/-- One or more decimal digits. -/
def parseDigits : List Char → Option (List Char × List Char)
  | c :: cs =>
    if c.isDigit then
      match parseDigits cs with
      | some (ds, rest) => some (c :: ds, rest)
      | none => some ([c], cs)
    else none
  | [] => none

/-- The integer part of a JSON number: `0`, or a nonzero digit followed by
digits (leading zeros are a `SyntaxError` for `JSON.parse`). -/
def parseIntPart : List Char → Option (List Char × List Char)
  | '0' :: cs => some (['0'], cs)
  | c :: cs =>
    if c.isDigit then
      match parseDigits cs with
      | some (ds, rest) => some (c :: ds, rest)
      | none => some ([c], cs)
    else none
  | [] => none

def parseFracPart : List Char → Option (List Char × List Char)
  | '.' :: cs => (parseDigits cs).map (fun p => ('.' :: p.1, p.2))
  | cs => some ([], cs)

def parseExpPart : List Char → Option (List Char × List Char)
  | e :: cs =>
    if e == 'e' || e == 'E' then
      match cs with
      | s :: cs' =>
        if s == '+' || s == '-' then
          (parseDigits cs').map (fun p => (e :: s :: p.1, p.2))
        else (parseDigits cs).map (fun p => (e :: p.1, p.2))
      | [] => none
    else some ([], e :: cs)
  | [] => some ([], [])

/-- A JSON number token (returned verbatim as the `num` payload). -/
def parseNumToken (cs : List Char) : Option (List Char × List Char) :=
  match cs with
  | '-' :: rest => do
    let (i, r1) ← parseIntPart rest
    let (f, r2) ← parseFracPart r1
    let (x, r3) ← parseExpPart r2
    pure ('-' :: (i ++ f ++ x), r3)
  | _ => do
    let (i, r1) ← parseIntPart cs
    let (f, r2) ← parseFracPart r1
    let (x, r3) ← parseExpPart r2
    pure (i ++ f ++ x, r3)

def removeKey (k : String) : JsonObj → JsonObj
  | .nil => .nil
  | .cons k' v rest => if k' = k then removeKey k rest else .cons k' v (removeKey k rest)

/-- Prepend a binding to fields parsed later, letting a later duplicate key
overwrite the value while the first occurrence keeps its position — the
semantics of repeated keys under `JSON.parse`. -/
def placeFirst (k : String) (v : Json) (later : JsonObj) : JsonObj :=
  match later.get k with
  | some w => JsonObj.cons k w (removeKey k later)
  | none => JsonObj.cons k v later

mutual

def parseVal : Nat → List Char → Option (Json × List Char)
  | 0, _ => none
  | fuel + 1, cs =>
    match jsonWsChars cs with
    | 'n' :: 'u' :: 'l' :: 'l' :: rest => some (.null, rest)
    | 't' :: 'r' :: 'u' :: 'e' :: rest => some (.jbool true, rest)
    | 'f' :: 'a' :: 'l' :: 's' :: 'e' :: rest => some (.jbool false, rest)
    | '"' :: rest => (parseStrBody rest).map (fun p => (.str (String.mk p.1), p.2))
    | '[' :: rest =>
      (match jsonWsChars rest with
       | ']' :: rest' => some (.arr .nil, rest')
       | other => (parseArrItems fuel other).map (fun p => (.arr p.1, p.2)))
    | '{' :: rest =>
      (match jsonWsChars rest with
       | '}' :: rest' => some (.obj .nil, rest')
       | other => (parseObjItems fuel other).map (fun p => (.obj p.1, p.2)))
    | other => (parseNumToken other).map (fun p => (.num (String.mk p.1), p.2))

def parseArrItems : Nat → List Char → Option (JsonArr × List Char)
  | 0, _ => none
  | fuel + 1, cs => do
    let (v, r1) ← parseVal fuel cs
    match jsonWsChars r1 with
    | ',' :: r2 => (parseArrItems fuel r2).map (fun p => (JsonArr.cons v p.1, p.2))
    | ']' :: r2 => some (JsonArr.cons v .nil, r2)
    | _ => none

def parseObjItems : Nat → List Char → Option (JsonObj × List Char)
  | 0, _ => none
  | fuel + 1, cs =>
    match jsonWsChars cs with
    | '"' :: rest => do
      let (k, r1) ← parseStrBody rest
      match jsonWsChars r1 with
      | ':' :: r2 => do
        let (v, r3) ← parseVal fuel r2
        match jsonWsChars r3 with
        | ',' :: r4 =>
          (parseObjItems fuel r4).map (fun p => (placeFirst (String.mk k) v p.1, p.2))
        | '}' :: r4 => some (JsonObj.cons (String.mk k) v .nil, r4)
        | _ => none
      | _ => none
    | _ => none

end

/-- Model of `JSON.parse`: `none` is a `SyntaxError`. The fuel is large enough
for any input of this length (each recursive call consumes input). -/
def parseJson (s : String) : Option Json :=
  match parseVal (2 * s.length + 2) s.data with
  | some (v, rest) => if jsonWsChars rest = [] then some v else none
  | none => none

/-! ## A model of `JSON.stringify` (no indentation) -/

def hexDigitChar (n : Nat) : Char :=
  if n < 10 then Char.ofNat ('0'.toNat + n) else Char.ofNat ('a'.toNat + n - 10)

def escapeInto (c : Char) : List Char :=
  if c == '"' || c == '\\' then ['\\', c]
  else if c == '\n' then ['\\', 'n']
  else if c == '\r' then ['\\', 'r']
  else if c == '\t' then ['\\', 't']
  else if c == Char.ofNat 8 then ['\\', 'b']
  else if c == Char.ofNat 12 then ['\\', 'f']
  else if c.toNat < 32 then
    ['\\', 'u', '0', '0', hexDigitChar (c.toNat / 16), hexDigitChar (c.toNat % 16)]
  else [c]

def quoteStr (s : String) : String :=
  String.mk ('"' :: (s.data.map escapeInto).flatten ++ ['"'])

mutual

def stringifyJson : Json → String
  | .null => "null"
  | .jbool true => "true"
  | .jbool false => "false"
  | .num raw => raw
  | .str s => quoteStr s
  | .arr elems => "[" ++ stringifyItems elems ++ "]"
  | .obj fields => "\x7b" ++ stringifyFields fields ++ "\x7d"

def stringifyItems : JsonArr → String
  | .nil => ""
  | .cons x .nil => stringifyJson x
  | .cons x (.cons y rest) => stringifyJson x ++ "," ++ stringifyItems (.cons y rest)

def stringifyFields : JsonObj → String
  | .nil => ""
  | .cons k v .nil => quoteStr k ++ ":" ++ stringifyJson v
  | .cons k v (.cons k' v' rest) =>
    quoteStr k ++ ":" ++ stringifyJson v ++ "," ++ stringifyFields (.cons k' v' rest)

end

example :
    parseJson "\x7b\"choices\":[\x7b\"finish_reason\":null\x7d]\x7d" =
      some (.obj (.cons "choices"
        (.arr (.cons (.obj (.cons "finish_reason" .null .nil)) .nil)) .nil)) := by
  rfl

example : parseJson "\x7b\"a\":1,\"b\":\"x\\n\",\"a\":true\x7d" =
    some (.obj (.cons "a" (.jbool true) (.cons "b" (.str "x\n") .nil))) := by
  rfl

example : parseJson "[1, 2.5e3, -0.1]" =
    some (.arr (.cons (.num "1") (.cons (.num "2.5e3") (.cons (.num "-0.1") .nil)))) := by
  rfl

example : parseJson "01" = none := by rfl
example : parseJson "\x7b\"a\":1" = none := by rfl
example : stringifyJson (.obj (.cons "a" (.arr (.cons (.str "h\"i") .nil)) .nil)) =
    "\x7b\"a\":[\"h\\\"i\"]\x7d" := by rfl

/-! ## LLMModelProvider: the incremental stream parser

`parseStreamingResponse` (src/services/ModelProvider.ts) accumulates arriving
bytes into a buffer, splits on newline keeping the trailing partial line, and
processes each complete line through `parseStreamLine`; a chunk for which
`isDoneChunk` holds makes the generator `return` — before any `yield` of that
chunk — so the sequence ends there. The embedding processes the list of
complete lines in arrival order. -/

/-- Result of `parseStreamLine` on one line, together with the exception flow
around it: `skip` is a `null` return (blank line, `[DONE]` sentinel, missing
`data: ` marker, or a `SyntaxError` from `JSON.parse`, which is logged and
skipped); `yieldChunk` hands the parsed value to the loop; `raise` is a thrown
error (the chunk carried an `error` field, or the `in` operator was applied to
a primitive). -/
inductive LineResult where
  | skip : LineResult
  | yieldChunk (chunk : Json) : LineResult
  | raise (message : String) : LineResult

/-- `chunk.error.message` as read by `parseStreamLine` when raising. -/
def errFieldMessage (e : Json) : String :=
  match jGet e "message" with
  | some (.str s) => s
  | _ => ""

/-- Embedding of `LLMModelProvider.parseStreamLine`. -/
def parseStreamLine (line : String) : LineResult :=
  let trimmedLine := jsTrim line
  if trimmedLine = "" ∨ trimmedLine = "data: [DONE]" then .skip
  else if ¬ strStarts trimmedLine "data: " then .skip
  else
    let jsonStr := strDropn trimmedLine 6
    match parseJson jsonStr with
    | none => .skip
    | some chunk =>
      match chunk with
      | .obj fields =>
        match fields.get "error" with
        | some e => .raise (errFieldMessage e)
        | none => .yieldChunk chunk
      | .arr _ => .yieldChunk chunk
      | _ => .raise "TypeError"

/-- Outcome of `isDoneChunk` on a dynamic value: `chunk.choices?.some(choice =>
choice.finish_reason !== null) ?? false`. A missing or `null` `choices` makes
the optional chain yield `undefined`, defaulted to `false`; a non-array
`choices` has no `.some` method (a `TypeError`). -/
inductive DoneCheck where
  | done : DoneCheck
  | notDone : DoneCheck
  | typeError : DoneCheck
deriving DecidableEq, Repr

/-- `choice.finish_reason !== null`: true for a string, for any other non-null
value, and for an absent field (`undefined !== null`). -/
def finishedChoice (choice : Json) : Bool :=
  match jGet choice "finish_reason" with
  | some .null => false
  | _ => true

def anyChoiceFinished : JsonArr → Bool
  | .nil => false
  | .cons c rest => finishedChoice c || anyChoiceFinished rest

/-- Embedding of `LLMModelProvider.isDoneChunk`. -/
def doneCheck (chunk : Json) : DoneCheck :=
  match jGet chunk "choices" with
  | none => .notDone
  | some .null => .notDone
  | some (.arr cs) => if anyChoiceFinished cs then .done else .notDone
  | some _ => .typeError

/-- How the chunk sequence ends: the source exhausted normally, a done chunk
signalled completion (the generator returns without yielding it), or an error
was raised to the consumer. -/
inductive StreamEnd where
  | normal : StreamEnd
  | doneSignal : StreamEnd
  | errored (message : String) : StreamEnd
deriving DecidableEq, Repr

structure StreamRun where
  yielded : List Json
  ending : StreamEnd

/-- Embedding of the line-processing loop of `parseStreamingResponse`: the
chunks yielded to the consumer and how the sequence ends, given the complete
lines of the upstream event stream in order. -/
def processLines : List String → StreamRun
  | [] => ⟨[], .normal⟩
  | line :: rest =>
    match parseStreamLine line with
    | .skip => processLines rest
    | .raise m => ⟨[], .errored m⟩
    | .yieldChunk chunk =>
      match doneCheck chunk with
      | .done => ⟨[], .doneSignal⟩
      | .typeError => ⟨[], .errored "TypeError"⟩
      | .notDone =>
        let r := processLines rest
        ⟨chunk :: r.yielded, r.ending⟩

theorem processLines_skip {line : String} (ls : List String)
    (h : parseStreamLine line = .skip) :
    processLines (line :: ls) = processLines ls := by
  simp [processLines, h]

theorem processLines_raise {line : String} {m : String} (ls : List String)
    (h : parseStreamLine line = .raise m) :
    processLines (line :: ls) = ⟨[], .errored m⟩ := by
  simp [processLines, h]

theorem processLines_done {line : String} {c : Json} (ls : List String)
    (h : parseStreamLine line = .yieldChunk c) (hd : doneCheck c = .done) :
    processLines (line :: ls) = ⟨[], .doneSignal⟩ := by
  simp [processLines, h, hd]

theorem processLines_typeErr {line : String} {c : Json} (ls : List String)
    (h : parseStreamLine line = .yieldChunk c) (hd : doneCheck c = .typeError) :
    processLines (line :: ls) = ⟨[], .errored "TypeError"⟩ := by
  simp [processLines, h, hd]

theorem processLines_yield {line : String} {c : Json} (ls : List String)
    (h : parseStreamLine line = .yieldChunk c) (hd : doneCheck c = .notDone) :
    processLines (line :: ls) =
      ⟨c :: (processLines ls).yielded, (processLines ls).ending⟩ := by
  simp [processLines, h, hd]

/-- The three lines of the connectivity scenario. -/
def scenarioLines : List String :=
  ["data: \x7b\"choices\":[\x7b\"finish_reason\":null\x7d]\x7d",
   "data: \x7b\"choices\":[\x7b\"finish_reason\":\"stop\"\x7d]\x7d",
   "data: [DONE]"]

/-- The chunk parsed from the scenario's first line. -/
def scenarioChunk1 : Json :=
  .obj (.cons "choices" (.arr (.cons (.obj (.cons "finish_reason" .null .nil)) .nil)) .nil)

example : processLines scenarioLines = ⟨[scenarioChunk1], .doneSignal⟩ := by rfl

/-- C1 counterexample: the scenario of the claim — a `finish_reason: null` data
line, a `finish_reason: "stop"` data line, then the `[DONE]` sentinel — yields
exactly ONE chunk, not two: `parseStreamingResponse` returns on the finishing
chunk before yielding it. -/
theorem stream_scenario_yields_one_chunk_not_two :
    (processLines scenarioLines).yielded.length = 1 ∧
    ¬ (processLines scenarioLines).yielded.length = 2 ∧
    (processLines scenarioLines).ending = .doneSignal := by
  refine ⟨rfl, by decide, rfl⟩

/-- C1 (amended): feeding the parser the scenario lines yields exactly one
chunk (the one whose finish reason is `null`) and the sequence then ends with
the done signal; in general, a chunk any of whose choices carries a non-null
finish reason ends the sequence WITHOUT being yielded — every yielded chunk
fails the done check — and after a done-signalled run, appended further lines
are never processed. -/
theorem stream_done_chunk_ends_without_yield :
    processLines scenarioLines = ⟨[scenarioChunk1], .doneSignal⟩ ∧
    (∀ lines : List String, ∀ c ∈ (processLines lines).yielded, doneCheck c = .notDone) ∧
    (∀ lines rest : List String, (processLines lines).ending = .doneSignal →
      processLines (lines ++ rest) = processLines lines) := by
  refine ⟨rfl, ?_, ?_⟩
  · intro lines
    induction lines with
    | nil => intro c hc; simp [processLines] at hc
    | cons line ls ih =>
      intro c hc
      cases hps : parseStreamLine line with
      | skip => rw [processLines_skip ls hps] at hc; exact ih c hc
      | raise m => rw [processLines_raise ls hps] at hc; simp at hc
      | yieldChunk chunk =>
        cases hdc : doneCheck chunk with
        | done => rw [processLines_done ls hps hdc] at hc; simp at hc
        | typeError => rw [processLines_typeErr ls hps hdc] at hc; simp at hc
        | notDone =>
          rw [processLines_yield ls hps hdc] at hc
          simp only [List.mem_cons] at hc
          rcases hc with rfl | hc
          · exact hdc
          · exact ih c hc
  · intro lines rest h
    induction lines with
    | nil => simp [processLines] at h
    | cons line ls ih =>
      rw [List.cons_append]
      cases hps : parseStreamLine line with
      | skip =>
        rw [processLines_skip ls hps] at h
        rw [processLines_skip (ls ++ rest) hps, processLines_skip ls hps, ih h]
      | raise m =>
        rw [processLines_raise ls hps] at h
        simp at h
      | yieldChunk chunk =>
        cases hdc : doneCheck chunk with
        | done => rw [processLines_done (ls ++ rest) hps hdc, processLines_done ls hps hdc]
        | typeError =>
          rw [processLines_typeErr ls hps hdc] at h
          simp at h
        | notDone =>
          rw [processLines_yield ls hps hdc] at h
          rw [processLines_yield (ls ++ rest) hps hdc, processLines_yield ls hps hdc]
          simp only at h
          rw [ih h]

/-- Witness: the scenario run ends with the done signal, so appending a
further data line leaves the run unchanged (no further pulls). -/
theorem stream_done_chunk_ends_without_yield_witness :
    processLines (scenarioLines ++ ["data: \x7b\"choices\":[]\x7d"]) =
      processLines scenarioLines :=
  stream_done_chunk_ends_without_yield.2.2 scenarioLines
    ["data: \x7b\"choices\":[]\x7d"] (by rfl)

/-! ## ProxyServer: CORS policy

`setCorsHeaders` (ProxyServer.ts) computes the `Access-Control-Allow-Origin`
value from the request's `Origin` header and a fixed allow-list: a prefix
match for the `vscode-webview://` scheme entry, exact match for the others. -/

def allowedOrigins : List String :=
  ["vscode-webview://",
   "https://api2.cursor.sh",
   "https://api3.cursor.sh",
   "https://repo42.cursor.sh",
   "https://api4.cursor.sh",
   "https://us-asia.gcpp.cursor.sh",
   "https://us-eu.gcpp.cursor.sh",
   "https://us-only.gcpp.cursor.sh"]

/-- The allow-list predicate applied by `setCorsHeaders` to a present origin. -/
def originAllowed (origin : String) : Bool :=
  allowedOrigins.any fun allowed =>
    if strStarts allowed "vscode-webview://" then strStarts origin "vscode-webview://"
    else origin == allowed

/-- Embedding of the `Access-Control-Allow-Origin` computation of
`setCorsHeaders`: `none` is an absent `Origin` header; the empty string is
falsy in the `if (origin)` guard and is treated like an absent header. -/
def corsAllowOrigin (origin : Option String) : String :=
  match origin with
  | none => "null"
  | some o =>
    if o = "" then "null"
    else if originAllowed o then o else "null"

/-- C6: the `Access-Control-Allow-Origin` header echoes the request origin
exactly when the origin matches the allow-list (prefix match for
`vscode-webview://`, exact match for the fixed remote hostnames); any other
origin, and an absent origin, yields the string value `null`. (For the
degenerate origin string `"null"` the emitted value coincides with the origin
literally, so the iff form is stated for every other origin.) -/
theorem cors_allow_origin_iff :
    (∀ o : String, corsAllowOrigin (some o) = if originAllowed o then o else "null") ∧
    corsAllowOrigin none = "null" ∧
    (∀ o : String, o ≠ "null" → (corsAllowOrigin (some o) = o ↔ originAllowed o = true)) := by
  have base : ∀ o : String, corsAllowOrigin (some o) = if originAllowed o then o else "null" := by
    intro o
    by_cases h : o = ""
    · subst h; simp [corsAllowOrigin, originAllowed, allowedOrigins, strStarts, charsLead]
    · simp [corsAllowOrigin, h]
  refine ⟨base, rfl, ?_⟩
  intro o hnull
  rw [base o]
  constructor
  · intro h
    by_contra hna
    rw [Bool.not_eq_true] at hna
    rw [hna] at h
    simp at h
    exact hnull h.symm
  · intro h
    rw [h]
    simp

/-- Witness for C6: the fixed remote host is echoed; an attacker origin gets
the value `null` instead of an echo. -/
theorem cors_allow_origin_iff_witness :
    (corsAllowOrigin (some "https://api2.cursor.sh") = "https://api2.cursor.sh" ↔
      originAllowed "https://api2.cursor.sh" = true) ∧
    corsAllowOrigin (some "https://evil.example") = "null" ∧
    corsAllowOrigin (some "vscode-webview://abc123") = "vscode-webview://abc123" :=
  ⟨cors_allow_origin_iff.2.2 "https://api2.cursor.sh" (by decide), by decide, by decide⟩

/-! ## ProxyServer: the chat-completion handler

`handleChatCompletions` reads the raw body, parses and validates it
(`parseAndValidateRequest`), and either rewrites the connectivity-test probe
(`handleTestPrompt`) or forwards the original body unchanged. The provider's
model list (the awaited result of `modelProvider.getModels()`, which never
rejects) is an argument of the embedding. -/

/-- The model metadata rows reported by the provider (types/index.ts
`ModelInfo`); the handler only reads `id`. -/
structure ModelInfo where
  id : String
  object : String
  created : Int
  owned_by : String

/-- The outcome of the chat-completion handler that the claims observe:
an error response produced by `sendErrorResponse`, or a body string handed to
`forwardChatCompletionRequest` (the upstream POST to
`providerUrl + "/v1/chat/completions"`). An internal fault that escapes the
handler is converted to a 500 response by `handleRequestError`. -/
inductive ChatAction where
  | respond (status : Nat) (body : Json) : ChatAction
  | forward (body : String) : ChatAction

/-- Body shape produced by `sendErrorResponse`. -/
def errorResponseBody (message : String) (code : Nat) : Json :=
  .obj (.cons "error"
    (.obj (.cons "message" (.str message)
      (.cons "type" (.str "proxy_error")
        (.cons "code" (.num (toString code)) .nil)))) .nil)

/-- Is a JSON number token the number zero (`0`, `-0`, `0.0`, `0e9`, ...)?
The significand digits are all `0`. -/
def numTokenIsZero (raw : String) : Bool :=
  (raw.data.takeWhile (fun c => !(c == 'e' || c == 'E'))).all
    (fun c => c == '0' || c == '-' || c == '+' || c == '.')

/-- JavaScript truthiness of a parsed-JSON field used by the `!requestData.model`
guard: absent, `null`, `false`, the empty string, and a zero number are falsy. -/
def jsTruthy : Option Json → Bool
  | none => false
  | some .null => false
  | some (.jbool b) => b
  | some (.str s) => !(s == "")
  | some (.num raw) => !(numTokenIsZero raw)
  | some (.arr _) => true
  | some (.obj _) => true

/-- Embedding of `ProxyServer.parseAndValidateRequest`: the 400 responses it
sends for malformed input, or the parsed request. A top-level JSON `null`
body makes the `requestData.model` access throw a `TypeError`, which escapes
to `handleRequestError` and becomes the 500 response. -/
def parseAndValidateRequest (body : String) : Except ChatAction Json :=
  match parseJson body with
  | none => .error (.respond 400 (errorResponseBody "Invalid JSON in request body" 400))
  | some .null =>
    .error (.respond 500 (errorResponseBody "Internal Server Error" 500))
  | some requestData =>
    if !(jsTruthy (jGet requestData "model")) then
      .error (.respond 400 (errorResponseBody "Model field is required" 400))
    else
      match jGet requestData "messages" with
      | some (.arr ms) =>
        if ms.length = 0 then
          .error (.respond 400
            (errorResponseBody "Messages field is required and must be a non-empty array" 400))
        else .ok requestData
      | _ =>
        .error (.respond 400
          (errorResponseBody "Messages field is required and must be a non-empty array" 400))

/-- The connectivity-test sentinel content. -/
def testSentinel : String := "Test prompt using gpt-3.5-turbo"

/-- Embedding of `ProxyServer.isTestPrompt`: `messages.length > 1 &&
messages[1].content === testSentinel` (strict equality with a string is true
only for an equal string value). -/
def isTestPrompt (requestData : Json) : Bool :=
  match jGet requestData "messages" with
  | some (.arr ms) =>
    decide (1 < ms.length) &&
      (match ms.get 1 with
       | some m =>
         (match jGet m "content" with
          | some (.str s) => s == testSentinel
          | _ => false)
       | none => false)
  | _ => false

/-- Where the evaluation of `isTestPrompt` THROWS in the source: it reaches
`messages[1].content` with a `null` element, and property access on `null` is
a `TypeError`. (Access on any other JSON value yields a property or
`undefined`, never a throw; `messages[1]` is only read when
`messages.length > 1`.) The throw happens inside the `try` of
`handleChatCompletions`, whose `catch` sends the 500 response. -/
def testPromptThrows (requestData : Json) : Bool :=
  match jGet requestData "messages" with
  | some (.arr ms) =>
    decide (1 < ms.length) &&
      (match ms.get 1 with
       | some .null => true
       | _ => false)
  | _ => false

/-- Embedding of `ProxyServer.selectNonEmbeddingModel`: first model whose
lowercased id contains neither "embed" nor "text-embedding". -/
def selectNonEmbeddingModel (models : List ModelInfo) : Option ModelInfo :=
  models.find? fun model =>
    !(strIncludes (lowerStr model.id) "embed") &&
    !(strIncludes (lowerStr model.id) "text-embedding")

/-- Embedding of `ProxyServer.handleChatCompletions` (with
`handleTestPrompt` inlined at its call site), given the raw request body and
the provider's model list. The `if (this.isTestPrompt(requestData))` test is
decomposed into its throwing condition (`testPromptThrows`, a `TypeError`
caught by the surrounding `try` and answered with the 500 response whose
message is `Internal server error`, the thrown error not being a
`ModelError`) and its boolean value on the non-throwing inputs
(`isTestPrompt`). -/
def handleChatCompletions (body : String) (models : List ModelInfo) : ChatAction :=
  match parseAndValidateRequest body with
  | .error action => action
  | .ok requestData =>
    if testPromptThrows requestData then
      .respond 500 (errorResponseBody "Internal server error" 500)
    else if isTestPrompt requestData then
      match selectNonEmbeddingModel models with
      | none => .respond 503 (errorResponseBody "No suitable models available from provider" 503)
      | some availableModel =>
        .forward (stringifyJson (jSet requestData "model" (.str availableModel.id)))
    else .forward body

theorem get_setField_same : ∀ (fs : JsonObj) (k : String) (v : Json),
    (fs.setField k v).get k = some v
  | .nil, k, v => by simp [JsonObj.setField, JsonObj.get]
  | .cons k' w rest, k, v => by
    by_cases h : k' = k
    · subst h; simp [JsonObj.setField, JsonObj.get]
    · simp [JsonObj.setField, JsonObj.get, h, get_setField_same rest k v]

theorem get_setField_other : ∀ (fs : JsonObj) (k key : String) (v : Json), key ≠ k →
    (fs.setField k v).get key = fs.get key
  | .nil, k, key, v, h => by
    simp only [JsonObj.setField, JsonObj.get]
    exact if_neg (fun hh => h hh.symm)
  | .cons k' w rest, k, key, v, h => by
    by_cases hk : k' = k
    · subst hk
      simp only [JsonObj.setField, if_pos rfl, JsonObj.get]
      rw [if_neg (fun hh => h hh.symm), if_neg (fun hh => h hh.symm)]
    · simp only [JsonObj.setField, if_neg hk, JsonObj.get]
      by_cases hkey : k' = key
      · simp [hkey]
      · simp [hkey, get_setField_other rest k key v h]

/-- If the lowercased id avoids "embed" it also avoids "text-embedding", so the
second conjunct of `selectNonEmbeddingModel`'s predicate is redundant. -/
theorem embed_pred_redundant (m : ModelInfo) :
    (!(strIncludes (lowerStr m.id) "embed") && !(strIncludes (lowerStr m.id) "text-embedding"))
      = !(strIncludes (lowerStr m.id) "embed") := by
  cases ha : strIncludes (lowerStr m.id) "embed" with
  | false =>
    have hb : strIncludes (lowerStr m.id) "text-embedding" = false := by
      by_contra hcon
      rw [Bool.not_eq_false] at hcon
      have h1 : ("text-embedding".data) <:+: ((lowerStr m.id).data) :=
        (charsInside_iff _ _).mp hcon
      have h2 : ("embed".data) <:+: ("text-embedding".data) :=
        (charsInside_iff _ _).mp (by decide)
      have h3 := (charsInside_iff ("embed".data) ((lowerStr m.id).data)).mpr (h2.trans h1)
      rw [show charsInside ("embed".data) ((lowerStr m.id).data) =
            strIncludes (lowerStr m.id) "embed" from rfl, ha] at h3
      cases h3
    rw [hb]; rfl
  | true => rfl

theorem select_eq_first_non_embed (models : List ModelInfo) :
    selectNonEmbeddingModel models =
      models.find? (fun m => !(strIncludes (lowerStr m.id) "embed")) := by
  induction models with
  | nil => rfl
  | cons m ms ih =>
    simp only [selectNonEmbeddingModel, List.find?] at ih ⊢
    rw [embed_pred_redundant m]
    cases h : !(strIncludes (lowerStr m.id) "embed")
    · exact ih
    · rfl

/-- `isTestPrompt requestData = true` requires `messages[1]` to be an object
whose `content` is the sentinel string; in particular the element is not
`null`, so the evaluation cannot throw. -/
theorem isTestPrompt_no_throw (requestData : Json)
    (h : isTestPrompt requestData = true) :
    testPromptThrows requestData = false := by
  simp only [isTestPrompt] at h
  simp only [testPromptThrows]
  rcases hm : jGet requestData "messages" with _ | j
  · rfl
  · rw [hm] at h
    cases j with
    | arr ms =>
      rcases hg : ms.get 1 with _ | m
      · simp [hg] at h
      · simp only [hg] at h
        cases m <;> simp_all [jGet]
    | null => rfl
    | jbool b => rfl
    | num raw => rfl
    | str s2 => rfl
    | obj fs => rfl

/-- C7 (amended): a validated request whose second message's content is
exactly the connectivity-test sentinel is forwarded with the `model` field
replaced by the id of the first provider model whose id does not contain
"embed" (case-insensitively) — the `text-embedding` exclusion in the source
predicate is redundant — every other field being unchanged. A validated
request that does not match the sentinel is forwarded with its original body
unchanged UNLESS its second message is JSON `null`: there the sentinel test
itself throws a `TypeError` and the handler responds 500 without
forwarding. -/
theorem test_prompt_model_substitution :
    (∀ (body : String) (requestData : Json) (ms : JsonArr) (m1 : Json)
       (models : List ModelInfo) (availableModel : ModelInfo),
      parseAndValidateRequest body = .ok requestData →
      jGet requestData "messages" = some (.arr ms) →
      1 < ms.length →
      ms.get 1 = some m1 →
      jGet m1 "content" = some (.str testSentinel) →
      selectNonEmbeddingModel models = some availableModel →
      handleChatCompletions body models =
        .forward (stringifyJson (jSet requestData "model" (.str availableModel.id)))) ∧
    (∀ (fields : JsonObj) (v : Json),
      jGet (jSet (.obj fields) "model" v) "model" = some v ∧
      ∀ key, key ≠ "model" → jGet (jSet (.obj fields) "model" v) key = jGet (.obj fields) key) ∧
    (∀ models : List ModelInfo,
      selectNonEmbeddingModel models =
        models.find? (fun m => !(strIncludes (lowerStr m.id) "embed"))) ∧
    (∀ (body : String) (requestData : Json) (models : List ModelInfo),
      parseAndValidateRequest body = .ok requestData →
      isTestPrompt requestData = false →
      testPromptThrows requestData = false →
      handleChatCompletions body models = .forward body) ∧
    (∀ (body : String) (requestData : Json) (models : List ModelInfo),
      parseAndValidateRequest body = .ok requestData →
      testPromptThrows requestData = true →
      handleChatCompletions body models =
        .respond 500 (errorResponseBody "Internal server error" 500)) := by
  refine ⟨?_, ?_, select_eq_first_non_embed, ?_, ?_⟩
  · intro body requestData ms m1 models availableModel hparse hmsg hlen hget hcontent hsel
    have htest : isTestPrompt requestData := by
      simp only [isTestPrompt, hmsg, hget, hcontent]
      simp [hlen, testSentinel]
    have hthrow := isTestPrompt_no_throw requestData htest
    simp [handleChatCompletions, hparse, hthrow, htest, hsel]
  · intro fields v
    refine ⟨get_setField_same fields "model" v, ?_⟩
    intro key hkey
    exact get_setField_other fields "model" key v hkey
  · intro body requestData models hparse htest hthrow
    simp [handleChatCompletions, hparse, htest, hthrow]
  · intro body requestData models hparse hthrow
    simp [handleChatCompletions, hparse, hthrow]

/-- A concrete probe request and model list exercising C7: the body matches
the sentinel, the first id contains "embed", so the second model's id is
substituted. -/
def probeBody : String :=
  "\x7b\"model\":\"gpt-3.5-turbo\",\"messages\":[\x7b\"role\":\"system\",\"content\":\"You are a helpful assistant.\"\x7d,\x7b\"role\":\"user\",\"content\":\"Test prompt using gpt-3.5-turbo\"\x7d],\"temperature\":0.7\x7d"

def probeModels : List ModelInfo :=
  [⟨"text-embedding-ada-002", "model", 0, "org"⟩, ⟨"llama-3-8b", "model", 0, "org"⟩]

/-- Witness for C7: on the concrete probe request the handler forwards the
body with `model` rewritten to `llama-3-8b` and the other fields intact. -/
theorem test_prompt_model_substitution_witness :
    handleChatCompletions probeBody probeModels =
      .forward "\x7b\"model\":\"llama-3-8b\",\"messages\":[\x7b\"role\":\"system\",\"content\":\"You are a helpful assistant.\"\x7d,\x7b\"role\":\"user\",\"content\":\"Test prompt using gpt-3.5-turbo\"\x7d],\"temperature\":0.7\x7d" := by
  have h := test_prompt_model_substitution.1 probeBody
    (.obj (.cons "model" (.str "gpt-3.5-turbo")
      (.cons "messages" (.arr (.cons
          (.obj (.cons "role" (.str "system")
            (.cons "content" (.str "You are a helpful assistant.") .nil)))
          (.cons (.obj (.cons "role" (.str "user")
            (.cons "content" (.str testSentinel) .nil))) .nil)))
        (.cons "temperature" (.num "0.7") .nil))))
    (.cons (.obj (.cons "role" (.str "system")
        (.cons "content" (.str "You are a helpful assistant.") .nil)))
      (.cons (.obj (.cons "role" (.str "user")
        (.cons "content" (.str testSentinel) .nil))) .nil))
    (.obj (.cons "role" (.str "user") (.cons "content" (.str testSentinel) .nil)))
    probeModels ⟨"llama-3-8b", "model", 0, "org"⟩
    (by rfl) (by rfl) (by decide) (by rfl) (by rfl) (by rfl)
  exact h.trans (by rfl)

/-- A parseable request — truthy model, two messages — whose SECOND message
element is JSON `null`; it does not match the sentinel. -/
def nullSecondBody : String :=
  "\x7b\"model\":\"m\",\"messages\":[\x7b\"role\":\"user\",\"content\":\"hi\"\x7d,null]\x7d"

/-- The parsed form of `nullSecondBody`. -/
def nullSecondRequest : Json :=
  .obj (.cons "model" (.str "m")
    (.cons "messages" (.arr (.cons
        (.obj (.cons "role" (.str "user") (.cons "content" (.str "hi") .nil)))
        (.cons .null .nil))) .nil))

/-- C7 counterexample: the claim forwards every validated non-sentinel
request unchanged, but on `nullSecondBody` — which validates and does not
match the sentinel — the source's `messages[1].content` access throws a
`TypeError` on the `null` element; the handler's catch answers 500 and
nothing is forwarded. -/
theorem null_second_message_not_forwarded :
    parseAndValidateRequest nullSecondBody = .ok nullSecondRequest ∧
    isTestPrompt nullSecondRequest = false ∧
    handleChatCompletions nullSecondBody [] =
      .respond 500 (errorResponseBody "Internal server error" 500) ∧
    handleChatCompletions nullSecondBody [] ≠ .forward nullSecondBody := by
  refine ⟨rfl, rfl, rfl, ?_⟩
  intro hcontra
  rw [show handleChatCompletions nullSecondBody [] =
      .respond 500 (errorResponseBody "Internal server error" 500) from rfl] at hcontra
  cases hcontra

/-- C10: a validated request matching the connectivity-test sentinel, when
every provider model id contains "embed" (case-insensitively) — in particular
when the list is empty — is not forwarded: the handler responds 503 with the
standard error body whose `error.type` is `proxy_error`. -/
theorem test_prompt_no_model_503 :
    ∀ (body : String) (requestData : Json) (models : List ModelInfo),
      parseAndValidateRequest body = .ok requestData →
      isTestPrompt requestData = true →
      (∀ m ∈ models, strIncludes (lowerStr m.id) "embed" = true) →
      handleChatCompletions body models =
        .respond 503 (errorResponseBody "No suitable models available from provider" 503) ∧
      ∃ e, jGet (errorResponseBody "No suitable models available from provider" 503) "error"
          = some e ∧ jGet e "type" = some (.str "proxy_error") := by
  intro body requestData models hparse htest hall
  have hsel : selectNonEmbeddingModel models = none := by
    rw [select_eq_first_non_embed]
    rw [List.find?_eq_none]
    intro m hm
    rw [hall m hm]
    simp
  have hthrow := isTestPrompt_no_throw requestData htest
  refine ⟨?_, ?_⟩
  · simp [handleChatCompletions, hparse, hthrow, htest, hsel]
  · exact ⟨_, rfl, rfl⟩

/-- Witness for C10: the concrete probe request against a provider list
holding only an embedding model (and the checks that an empty list behaves
the same) yields the 503 proxy-error response. -/
theorem test_prompt_no_model_503_witness :
    handleChatCompletions probeBody [⟨"text-embedding-ada-002", "model", 0, "org"⟩] =
      .respond 503 (errorResponseBody "No suitable models available from provider" 503) ∧
    ∃ e, jGet (errorResponseBody "No suitable models available from provider" 503) "error"
        = some e ∧ jGet e "type" = some (.str "proxy_error") :=
  test_prompt_no_model_503 probeBody
    (.obj (.cons "model" (.str "gpt-3.5-turbo")
      (.cons "messages" (.arr (.cons
          (.obj (.cons "role" (.str "system")
            (.cons "content" (.str "You are a helpful assistant.") .nil)))
          (.cons (.obj (.cons "role" (.str "user")
            (.cons "content" (.str testSentinel) .nil))) .nil)))
        (.cons "temperature" (.num "0.7") .nil))))
    [⟨"text-embedding-ada-002", "model", 0, "org"⟩]
    (by rfl) (by rfl) (by decide)

/-! ## LLMModelProvider: URL validation and `getModels`

`getModels` builds `providerUrl` (trailing slash stripped) + "/v1/models",
calls `validateUrl` on it, and only then enters the `try` block whose `catch`
converts every failure to an empty list. `validateUrl` consults `new URL(...)`
only for whether the string parses and for its `protocol`; `new URL` is an
external builtin (full WHATWG parsing), so its outcome on the one string the
code passes it is an explicit environment input, like the fetch outcome. -/

/-- Errors of the `ModelError` class: a message and the (string) value the
source passes as the `cause` argument. -/
structure ModelError where
  message : String
  cause : Option String
deriving DecidableEq, Repr

/-- What the `new URL(urlString)` call did: threw (any WHATWG parse failure —
no scheme, forbidden host code point, invalid port, ...), or produced a URL
object whose `protocol` (scheme with trailing colon, lowercased) is the given
string. -/
inductive UrlParseOutcome where
  | throws : UrlParseOutcome
  | parsed (protocol : String) : UrlParseOutcome
deriving DecidableEq, Repr

/-- Embedding of `LLMModelProvider.validateUrl`, given what `new URL` did on
`urlString`. -/
def validateUrl (urlString : String) (outcome : UrlParseOutcome) :
    Except ModelError Unit :=
  match outcome with
  | .throws => .error ⟨s!"Invalid URL: {urlString}", some "INVALID_URL"⟩
  | .parsed protocol =>
    if protocol = "http:" ∨ protocol = "https:" then .ok ()
    else .error ⟨s!"Unsupported URL scheme: {protocol}", some "INVALID_URL_SCHEME"⟩

/-- The provider base URL with a single trailing slash stripped, as computed
at the top of `getModels` and `createChatCompletion`. -/
def stripTrailingSlash (providerUrl : String) : String :=
  if strEnds providerUrl "/" then String.mk (providerUrl.data.dropLast) else providerUrl

/-- The `\x7bbaseUrl\x7d/v1/models` URL `getModels` validates and fetches. -/
def modelsUrl (providerUrl : String) : String :=
  stripTrailingSlash providerUrl ++ "/v1/models"

/-- Everything the environment decides about the timed GET inside the `try`
block of `getModels`: the fetch rejects (network error or the abort timer), or
resolves with a status and a body whose `response.json()` either rejects
(`none`) or yields a parsed value. -/
inductive FetchOutcome where
  | networkError (message : String) : FetchOutcome
  | httpResponse (ok : Bool) (status : Nat) (statusText : String) (body : Option Json) : FetchOutcome

/-- The `\x7b id, object, created, owned_by \x7d` row the rest of the code
reads from each entry of `data.data` (the source casts, so missing fields
decode to defaults). -/
def decodeModelInfo (j : Json) : ModelInfo :=
  { id := match jGet j "id" with | some (.str s) => s | _ => ""
    object := match jGet j "object" with | some (.str s) => s | _ => ""
    created := 0
    owned_by := match jGet j "owned_by" with | some (.str s) => s | _ => "" }

/-- `data.data || []` of the parsed body, decoded per entry. -/
def decodeModels (j : Json) : List ModelInfo :=
  match jGet j "data" with
  | some (.arr xs) => xs.toList.map decodeModelInfo
  | _ => []

/-- Embedding of `LLMModelProvider.getModels`: URL validation happens before
the `try`, so its `ModelError` propagates; every failure inside the `try` is
caught and becomes the empty list. `urlOutcome` is what `new URL` did on the
derived models URL; `upstream` is what the timed fetch did. -/
def getModels (providerUrl : String) (urlOutcome : UrlParseOutcome)
    (upstream : FetchOutcome) : Except ModelError (List ModelInfo) := do
  let url := modelsUrl providerUrl
  match validateUrl url urlOutcome with
  | .error e => .error e
  | .ok () =>
    match upstream with
    | .networkError _ => .ok []
    | .httpResponse ok _ _ body =>
      if ¬ ok then .ok []
      else
        match body with
        | none => .ok []
        | some j => .ok (decodeModels j)

/-- C8 counterexample: `getModels` CAN raise — URL validation runs before the
failure-swallowing `try` block, so its `ModelError` propagates to the caller
instead of an empty list being returned. With providerUrl
`ftp://localhost:1234`, `new URL("ftp://localhost:1234/v1/models")` parses
with protocol `ftp:` and the scheme check throws; with providerUrl
`not a url`, `new URL("not a url/v1/models")` itself throws (no scheme). -/
theorem getModels_raises_on_bad_scheme :
    getModels "ftp://localhost:1234" (.parsed "ftp:") (.httpResponse true 200 "OK" none) =
      .error ⟨"Unsupported URL scheme: ftp:", some "INVALID_URL_SCHEME"⟩ ∧
    getModels "not a url" .throws (.httpResponse true 200 "OK" none) =
      .error ⟨"Invalid URL: not a url/v1/models", some "INVALID_URL"⟩ := by
  constructor <;> rfl

/-- C8 (amended): whenever the source's own guard passes — `new URL` does not
throw on the derived models URL and reports protocol `http:` or `https:` —
`getModels` never raises: for every upstream outcome it returns `.ok`, and
each failure outcome — network error, non-success status, unparsable body —
returns the empty list. Only a URL-validation failure is propagated. -/
theorem getModels_ok_when_url_valid :
    ∀ (providerUrl : String) (urlOutcome : UrlParseOutcome) (upstream : FetchOutcome),
      validateUrl (modelsUrl providerUrl) urlOutcome = .ok () →
      (∃ models, getModels providerUrl urlOutcome upstream = .ok models) ∧
      (∀ e, getModels providerUrl urlOutcome upstream ≠ .error e) ∧
      (∀ m, upstream = .networkError m →
        getModels providerUrl urlOutcome upstream = .ok []) ∧
      (∀ st stx b, upstream = .httpResponse false st stx b →
        getModels providerUrl urlOutcome upstream = .ok []) ∧
      (∀ ok st stx, upstream = .httpResponse ok st stx none →
        getModels providerUrl urlOutcome upstream = .ok []) := by
  intro providerUrl urlOutcome upstream hvalid
  have hok : ∃ models, getModels providerUrl urlOutcome upstream = .ok models := by
    cases upstream with
    | networkError m => exact ⟨[], by simp [getModels, hvalid]⟩
    | httpResponse ok st stx body =>
      cases ok with
      | false => exact ⟨[], by simp [getModels, hvalid]⟩
      | true =>
        cases body with
        | none => exact ⟨[], by simp [getModels, hvalid]⟩
        | some j => exact ⟨decodeModels j, by simp [getModels, hvalid]⟩
  refine ⟨hok, ?_, ?_, ?_, ?_⟩
  · obtain ⟨models, hms⟩ := hok
    intro e he
    rw [hms] at he
    cases he
  · rintro m rfl; simp [getModels, hvalid]
  · rintro st stx b rfl; simp [getModels, hvalid]
  · rintro ok st stx rfl
    cases ok <;> simp [getModels, hvalid]

/-- Witness for the amended C8: the default configuration URL (on which
`new URL` yields protocol `http:`) with a failing fetch gives the empty list
rather than an error. -/
theorem getModels_ok_when_url_valid_witness :
    (∃ models,
      getModels "http://localhost:1234" (.parsed "http:") (.networkError "ECONNREFUSED")
        = .ok models) ∧
    getModels "http://localhost:1234" (.parsed "http:") (.networkError "ECONNREFUSED")
      = .ok [] :=
  have h := getModels_ok_when_url_valid "http://localhost:1234" (.parsed "http:")
    (.networkError "ECONNREFUSED") (by rfl)
  ⟨h.1, h.2.2.1 "ECONNREFUSED" rfl⟩

/-! ## LLMModelProvider: request validation and the upstream body

`createChatCompletion` validates the typed request, then builds the upstream
body with `buildChatCompletionBody`, which defaults `temperature` to `0.7`
and `stream` to `true` via `??`; the two fields are therefore always present
in the serialized body. Numeric sampling parameters are modelled as
rationals (no arithmetic is performed on them). -/

structure ChatMessage where
  role : String
  content : String
deriving DecidableEq, Repr

/-- The typed `ChatCompletionRequest` (types/index.ts); optional fields are
`Option`, `none` standing for an absent (`undefined`) field. -/
structure ChatCompletionRequest where
  model : String
  messages : List ChatMessage
  temperature : Option ℚ := none
  stream : Option Bool := none
  max_tokens : Option ℚ := none
  top_p : Option ℚ := none
  frequency_penalty : Option ℚ := none
  presence_penalty : Option ℚ := none

/-- The body object literal built by `buildChatCompletionBody`: `temperature`
and `stream` are unconditionally present (`undefined` sampling fields remain
absent after `JSON.stringify`, hence stay `Option`). -/
structure ChatCompletionBody where
  model : String
  messages : List ChatMessage
  temperature : ℚ
  stream : Bool
  max_tokens : Option ℚ
  top_p : Option ℚ
  frequency_penalty : Option ℚ
  presence_penalty : Option ℚ

/-- Embedding of `LLMModelProvider.buildChatCompletionBody`. -/
def buildChatCompletionBody (request : ChatCompletionRequest) : ChatCompletionBody :=
  { model := request.model
    messages := request.messages
    temperature := request.temperature.getD (7 / 10 : ℚ)
    stream := request.stream.getD true
    max_tokens := request.max_tokens
    top_p := request.top_p
    frequency_penalty := request.frequency_penalty
    presence_penalty := request.presence_penalty }

/-- Embedding of `LLMModelProvider.validateChatCompletionRequest`. -/
def validateChatCompletionRequest (request : ChatCompletionRequest) :
    Except ModelError Unit :=
  if jsTrim request.model = "" then
    .error ⟨"Model is required for chat completion", none⟩
  else if request.messages.length = 0 then
    .error ⟨"Messages array is required and cannot be empty", none⟩
  else if request.messages.any (fun m => m.role = "" || jsTrim m.content = "") then
    .error ⟨"Each message must have a role and content", none⟩
  else
    match request.temperature with
    | some t =>
      if t < 0 ∨ t > 2 then .error ⟨"Temperature must be between 0 and 2", none⟩
      else .ok ()
    | none => .ok ()

/-- C9: a request accepted by `createChatCompletion`'s validation that omits
`temperature` is sent upstream with `temperature` 0.7, and one that omits
`stream` is sent with `stream` true; the body's `temperature` and `stream`
fields are total, so the omission is never forwarded as an absent field, and
every other field is passed through unchanged. -/
theorem chat_body_defaults :
    ∀ request : ChatCompletionRequest,
      validateChatCompletionRequest request = .ok () →
      (request.temperature = none → (buildChatCompletionBody request).temperature = 7 / 10) ∧
      (request.stream = none → (buildChatCompletionBody request).stream = true) ∧
      (buildChatCompletionBody request).model = request.model ∧
      (buildChatCompletionBody request).messages = request.messages ∧
      (buildChatCompletionBody request).max_tokens = request.max_tokens ∧
      (buildChatCompletionBody request).top_p = request.top_p ∧
      (buildChatCompletionBody request).frequency_penalty = request.frequency_penalty ∧
      (buildChatCompletionBody request).presence_penalty = request.presence_penalty := by
  intro request _
  refine ⟨?_, ?_, rfl, rfl, rfl, rfl, rfl, rfl⟩
  · intro h; simp [buildChatCompletionBody, h]
  · intro h; simp [buildChatCompletionBody, h]

/-- Witness for C9: a minimal valid request omitting both fields gets the
defaults. -/
theorem chat_body_defaults_witness :
    (buildChatCompletionBody ⟨"llama-3-8b", [⟨"user", "hi"⟩], none, none, none, none, none, none⟩).temperature = 7 / 10 ∧
    (buildChatCompletionBody ⟨"llama-3-8b", [⟨"user", "hi"⟩], none, none, none, none, none, none⟩).stream = true :=
  have h := chat_body_defaults ⟨"llama-3-8b", [⟨"user", "hi"⟩], none, none, none, none, none, none⟩ (by rfl)
  ⟨h.1 rfl, h.2.1 rfl⟩

/-! ## NgrokTunnelManager: the lifecycle state machine

The manager owns a `ProxyServer` (its bound/unbound state), an optional
tunnel handle, and the `TunnelStatus` snapshot. Every external outcome — the
port probe, the listen call, `ngrok.forward`, `tunnel.close()`,
`proxyServer.stop()`, and the `withTimeout` timer race — is an explicit
environment argument, and each lifecycle method is a function from state and
environment to a result, a new state, the list of `TunnelStatus` values it
assigns (in order), and the externally visible attempts it makes. -/

/-- JavaScript error values crossing the manager's boundary: a plain `Error`,
a `BridgeError` (message and `code`), or a `TunnelError` (a `BridgeError`
subclass with code `TUNNEL_ERROR`, message and optional cause). -/
inductive JsError where
  | plain (message : String) : JsError
  | bridge (message : String) (code : String) : JsError
  | tunnelErr (message : String) (cause : Option JsError) : JsError

def JsError.message : JsError → String
  | .plain m => m
  | .bridge m _ => m
  | .tunnelErr m _ => m

/-- The `TunnelStatus` record (types/index.ts): `isRunning` is required, the
rest optional. An absent `isStarting` and an explicit `false` are
indistinguishable in every use (`if (this.status.isStarting)`), so the flag is
a plain `Bool`; for `url` and `error` absence is observable, so they are
`Option`. -/
structure TunnelStatus where
  isRunning : Bool
  isStarting : Bool := false
  url : Option String := none
  error : Option String := none
deriving DecidableEq, Repr

/-- The manager's own fields: the tunnel handle (`null` or present), the
proxy's bound state, and the status snapshot. -/
structure ManagerState where
  hasTunnel : Bool
  proxyRunning : Bool
  status : TunnelStatus
deriving DecidableEq, Repr

/-- Construction state: `status = \x7b isRunning: false \x7d`, no tunnel, the
proxy not yet bound. -/
def initialManagerState : ManagerState := ⟨false, false, { isRunning := false }⟩

/-- Environment of one `ProxyServer.start()` call: the probe bind and the
subsequent listen can each fail. -/
inductive ProxyStartEnv where
  | portFree : ProxyStartEnv
  | probeInUse : ProxyStartEnv
  | listenEaddrInUse : ProxyStartEnv
  | listenOther (message : String) : ProxyStartEnv
deriving DecidableEq, Repr

/-- The message of the `PORT_IN_USE` `BridgeError` thrown by
`ProxyServer.start` when the probe bind fails. Note that the string
`PORT_IN_USE` is the error's `code`, not part of this message. -/
def portInUseMessage : String :=
  "Port 8082 is already in use. Please stop any other applications using this port or restart Cursor."

/-- Embedding of `ProxyServer.start`: result and the proxy's new bound
state. -/
def proxyStart (running : Bool) (env : ProxyStartEnv) : Except JsError Nat × Bool :=
  if running then
    (.error (.bridge "Proxy server is already running" "SERVER_ALREADY_RUNNING"), running)
  else
    match env with
    | .probeInUse => (.error (.bridge portInUseMessage "PORT_IN_USE"), false)
    | .listenEaddrInUse => (.error (.bridge "Port 8082 is already in use" "PORT_IN_USE"), false)
    | .listenOther _ => (.error (.bridge "Failed to start proxy server" "SERVER_START_ERROR"), false)
    | .portFree => (.ok 8082, true)

/-- Embedding of `ProxyServer.stop`: a no-op when not running; otherwise the
`close` callback clears the running flag before deciding success or the
`SERVER_STOP_ERROR` rejection. -/
def proxyStop (running : Bool) (closeFails : Option String) : Except JsError Unit × Bool :=
  if running then
    match closeFails with
    | some _ => (.error (.bridge "Failed to stop proxy server" "SERVER_STOP_ERROR"), false)
    | none => (.ok (), false)
  else (.ok (), running)

/-- Environment of one `ngrok.forward` call: it resolves with a tunnel whose
`url()` may be `null`, or rejects. -/
inductive TunnelCreateEnv where
  | up (url : Option String) : TunnelCreateEnv
  | failsWith (message : String) : TunnelCreateEnv
deriving DecidableEq, Repr

/-- The `TunnelStartResult` payload the manager consumes (the opaque handle
itself is tracked as `ManagerState.hasTunnel`). -/
structure TunnelStartResultM where
  url : String
  proxyPort : Nat
deriving DecidableEq, Repr

/-- Embedding of `NgrokTunnelManager.createTunnel` for a given forward
outcome. -/
def createTunnelM (env : TunnelCreateEnv) (proxyPort : Nat) :
    Except JsError TunnelStartResultM :=
  match env with
  | .failsWith m => .error (.plain m)
  | .up none => .error (.tunnelErr "Ngrok tunnel created but no URL received" none)
  | .up (some u) => .ok ⟨u, proxyPort⟩

structure StartAttemptEnv where
  proxy : ProxyStartEnv
  tunnel : TunnelCreateEnv
deriving DecidableEq, Repr

/-- Environment of one `start()` call: the swallowed pre-start proxy cleanup,
the two retry attempts, whether the `withTimeout` timer wins the race (in
which case the racing operation's progress — here, whether it had bound the
proxy — is environment-chosen), and the swallowed cleanup inside
`handleStartupFailure`. -/
structure StartEnv where
  cleanupStopFails : Option String
  attempt1 : StartAttemptEnv
  attempt2 : StartAttemptEnv
  timeoutWins : Bool
  proxyAtTimeout : Bool
  failCleanupStopFails : Option String
deriving DecidableEq, Repr

/-- One attempt of the retried operation: bind the proxy, then provision the
tunnel at the bound port. A tunnel failure leaves the proxy bound. -/
def runStartAttempt (proxyRunning : Bool) (env : StartAttemptEnv) :
    Except JsError TunnelStartResultM × Bool :=
  match proxyStart proxyRunning env.proxy with
  | (.error e, r) => (.error e, r)
  | (.ok port, r) =>
    match createTunnelM env.tunnel port with
    | .error e => (.error e, r)
    | .ok res => (.ok res, r)

/-- Embedding of `startTunnelWithRetry`’s `safeAsync(withTimeout(retry(op, 2)))`
pipeline: the timer winning yields the `Request timeout` error; otherwise
`retry` runs the attempt up to twice and rethrows the last error unchanged. -/
def startTunnelWithRetry (proxyRunning : Bool) (env : StartEnv) :
    Except JsError TunnelStartResultM × Bool :=
  if env.timeoutWins then (.error (.plain "Request timeout"), env.proxyAtTimeout)
  else
    match runStartAttempt proxyRunning env.attempt1 with
    | (.ok res, r) => (.ok res, r)
    | (.error _, r1) => runStartAttempt r1 env.attempt2

/-- `error?.message || 'Unknown error'` as stored into the status. -/
def errMessageOr (e : JsError) : String :=
  if e.message = "" then "Unknown error" else e.message

/-- The typed error raised by `handleStartupFailure`: the port-conflict
message is chosen by testing the FAILURE MESSAGE for the substring
`PORT_IN_USE`. -/
def startFailureError (e : JsError) : JsError :=
  if strIncludes e.message "PORT_IN_USE" then .tunnelErr portInUseMessage (some e)
  else .tunnelErr "Failed to start ngrok tunnel" (some e)

/-- Externally visible attempts recorded by the lifecycle methods. -/
inductive ManagerEvent where
  | tunnelCloseAttempt : ManagerEvent
  | proxyStopAttempt : ManagerEvent
  | forceCleanupRun : ManagerEvent
deriving DecidableEq, Repr

/-- Outcome of one lifecycle method: its result, the next manager state, the
`TunnelStatus` values assigned during the call (in order), and the attempts
made. -/
structure OpResult where
  result : Except JsError Unit
  state : ManagerState
  statuses : List TunnelStatus
  events : List ManagerEvent

/-- Continuation of `start()` after `startTunnelWithRetry` settles: either
`handleStartupFailure` (cleanup, error status, typed raise) or
`updateSuccessfulStartStatus`, each followed by the `finally` block that
clears `isStarting`. -/
def startOpAux (st : ManagerState) (env : StartEnv) (s1 : TunnelStatus) :
    Except JsError TunnelStartResultM × Bool → OpResult
  | (.error e, pAfter) =>
    let p1 := (proxyStop pAfter env.failCleanupStopFails).2
    let s2 : TunnelStatus :=
      { isRunning := false, isStarting := false, error := some (errMessageOr e) }
    let s3 : TunnelStatus := { s2 with isStarting := false }
    ⟨.error (startFailureError e), ⟨st.hasTunnel, p1, s3⟩, [s1, s2, s3], []⟩
  | (.ok data, pAfter) =>
    let s2 : TunnelStatus := { isRunning := true, url := some data.url }
    let s3 : TunnelStatus := { s2 with isStarting := false }
    ⟨.ok (), ⟨true, pAfter, s3⟩, [s1, s2, s3], []⟩

/-- Embedding of `NgrokTunnelManager.start`. -/
def startOp (st : ManagerState) (env : StartEnv) : OpResult :=
  if st.status.isRunning then ⟨.ok (), st, [], []⟩
  else if st.status.isStarting then ⟨.ok (), st, [], []⟩
  else
    startOpAux st env { st.status with isStarting := true }
      (startTunnelWithRetry (proxyStop st.proxyRunning env.cleanupStopFails).2 env)

/-- Environment of one `stop()` (or graceful-stop) call. -/
structure StopEnv where
  tunnelCloseFails : Option String
  proxyStopFails : Option String
deriving DecidableEq, Repr

/-- The Stopped status every teardown path assigns
(`{ isRunning: false, isStarting: false }`). -/
def stoppedStatus : TunnelStatus := { isRunning := false, isStarting := false }

/-- Manager fields after a teardown: tunnel handle nulled, proxy unbound
(the `close` callback clears its flag even on failure), status Stopped. -/
def stoppedState : ManagerState := ⟨false, false, stoppedStatus⟩

/-- The legs attempted by `stop()`/`gracefulStop()`: `stopTunnel(flag)` and
`stopProxy(flag)` each return `{ success: true }` without attempting
anything when their flag is false. -/
def stopLegEvents (hasActiveTunnel hasActiveProxy : Bool) : List ManagerEvent :=
  (if hasActiveTunnel then [ManagerEvent.tunnelCloseAttempt] else []) ++
  (if hasActiveProxy then [ManagerEvent.proxyStopAttempt] else [])

/-- The value `stop()` settles with, decided by the post-`Promise.all` checks:
the tunnel leg's `safeAsync` failure becomes the raised `TunnelError`, the
proxy leg's failure is only logged. -/
def stopResult (hasActiveTunnel : Bool) (closeFails : Option String) :
    Except JsError Unit :=
  if hasActiveTunnel then
    match closeFails with
    | some m => .error (.tunnelErr "Failed to stop ngrok tunnel cleanly" (some (.plain m)))
    | none => .ok ()
  else .ok ()

/-- Embedding of `NgrokTunnelManager.stop`: both legs always run to
completion (each is `safeAsync`-wrapped, so `Promise.all` cannot
short-circuit), the state is reset, then a tunnel-leg failure — and only a
tunnel-leg failure — is raised. -/
def stopOp (st : ManagerState) (env : StopEnv) : OpResult :=
  let hasActiveTunnel := st.hasTunnel && st.status.isRunning
  if !hasActiveTunnel && !st.proxyRunning then ⟨.ok (), st, [], []⟩
  else
    ⟨stopResult hasActiveTunnel env.tunnelCloseFails, stoppedState, [stoppedStatus],
      stopLegEvents hasActiveTunnel st.proxyRunning⟩

/-- Environment of `forceCleanup()`. -/
structure CleanupEnv where
  proxyStopFails : Option String
  tunnelCloseFails : Option String
deriving DecidableEq, Repr

/-- Embedding of `NgrokTunnelManager.forceCleanup`: each failure is swallowed
independently; always ends Stopped. -/
def forceCleanupOp (st : ManagerState) (env : CleanupEnv) : OpResult :=
  let p1 := (proxyStop st.proxyRunning env.proxyStopFails).2
  ⟨.ok (), ⟨false, p1, stoppedStatus⟩, [stoppedStatus],
    ManagerEvent.forceCleanupRun ::
      ((if st.proxyRunning then [ManagerEvent.proxyStopAttempt] else []) ++
       (if st.hasTunnel then [ManagerEvent.tunnelCloseAttempt] else []))⟩

/-- Embedding of `NgrokTunnelManager.gracefulStop`. Both legs are
`safeAsync`-wrapped, so they RESOLVE with `\x7b success: false \x7d` on
failure and `Promise.allSettled` reports both as fulfilled: the
`status === 'rejected'` tests are false whatever the environment does, the
double-failure `TunnelError` is never thrown, and the `catch` that calls
`forceCleanup()` cannot run. -/
def gracefulStopOp (st : ManagerState) (env : StopEnv) : OpResult :=
  let hasActiveTunnel := st.hasTunnel && st.status.isRunning
  if !hasActiveTunnel && !st.proxyRunning then ⟨.ok (), st, [], []⟩
  else
    let tunnelSettledRejected := false
    let proxySettledRejected := false
    if tunnelSettledRejected && proxySettledRejected then
      let fc := forceCleanupOp stoppedState ⟨env.proxyStopFails, env.tunnelCloseFails⟩
      ⟨.ok (), fc.state, stoppedStatus :: fc.statuses,
        stopLegEvents hasActiveTunnel st.proxyRunning ++ fc.events⟩
    else
      ⟨.ok (), stoppedState, [stoppedStatus],
        stopLegEvents hasActiveTunnel st.proxyRunning⟩

structure RestartEnv where
  stopEnv : StopEnv
  startEnv : StartEnv
deriving DecidableEq, Repr

/-- Embedding of `NgrokTunnelManager.restart`: graceful stop, the 500 ms
settling pause, then `start()`; a `TunnelError` escaping `start` is rethrown
unchanged, any other failure is wrapped as the restart `TunnelError`. -/
def restartOp (st : ManagerState) (env : RestartEnv) : OpResult :=
  let g := gracefulStopOp st env.stopEnv
  let s := startOp g.state env.startEnv
  let finalResult : Except JsError Unit :=
    match s.result with
    | .ok () => .ok ()
    | .error (.tunnelErr m c) => .error (.tunnelErr m c)
    | .error e => .error (.tunnelErr "Failed to restart tunnel" (some e))
  ⟨finalResult, s.state, g.statuses ++ s.statuses, g.events ++ s.events⟩

/-- One public lifecycle call with its environment. -/
inductive ManagerOp where
  | opStart (env : StartEnv) : ManagerOp
  | opStop (env : StopEnv) : ManagerOp
  | opRestart (env : RestartEnv) : ManagerOp
  | opForce (env : CleanupEnv) : ManagerOp

def runOp (st : ManagerState) : ManagerOp → OpResult
  | .opStart env => startOp st env
  | .opStop env => stopOp st env
  | .opRestart env => restartOp st env
  | .opForce env => forceCleanupOp st env

/-- A completed-call trace: final state and every status assigned along the
way. -/
structure RunTrace where
  state : ManagerState
  statuses : List TunnelStatus

def runOps : ManagerState → List ManagerOp → RunTrace
  | st, [] => ⟨st, []⟩
  | st, op :: ops =>
    let r := runOp st op
    let rest := runOps r.state ops
    ⟨rest.state, r.statuses ++ rest.statuses⟩

/-- The status part of the claimed invariant. -/
def statusOk (s : TunnelStatus) : Prop :=
  ¬(s.isRunning = true ∧ s.isStarting = true) ∧ (s.url ≠ none → s.isRunning = true)

/-- The strengthened invariant of quiescent (between-calls) states. -/
def quiescent (st : ManagerState) : Prop :=
  statusOk st.status ∧ st.status.isStarting = false ∧
    (st.status.isRunning = true → st.status.error = none)

theorem startOpAux_spec (st : ManagerState) (env : StartEnv) (s1 : TunnelStatus)
    (r : Except JsError TunnelStartResultM × Bool) (hs1 : statusOk s1) :
    quiescent (startOpAux st env s1 r).state ∧
      (∀ s ∈ (startOpAux st env s1 r).statuses, statusOk s) ∧
      ((startOpAux st env s1 r).result = .ok () →
        (startOpAux st env s1 r).state.status.error = none) := by
  rcases r with ⟨res, pAfter⟩
  cases res with
  | error e =>
    refine ⟨⟨⟨?_, ?_⟩, rfl, ?_⟩, ?_, ?_⟩
    · rintro ⟨h1, _⟩; cases h1
    · intro hu; cases hu rfl
    · intro h1; cases h1
    · intro s hs
      simp only [startOpAux, List.mem_cons, List.mem_singleton] at hs
      rcases hs with rfl | rfl | rfl | hs
      · exact hs1
      · exact ⟨(by rintro ⟨h1, _⟩; cases h1), (by intro hu; cases hu rfl)⟩
      · exact ⟨(by rintro ⟨h1, _⟩; cases h1), (by intro hu; cases hu rfl)⟩
      · cases hs
    · intro hok; cases hok
  | ok data =>
    refine ⟨⟨⟨?_, ?_⟩, rfl, fun _ => rfl⟩, ?_, fun _ => rfl⟩
    · rintro ⟨_, h2⟩; cases h2
    · intro _; rfl
    · intro s hs
      simp only [startOpAux, List.mem_cons, List.mem_singleton] at hs
      rcases hs with rfl | rfl | rfl | hs
      · exact hs1
      · exact ⟨(by rintro ⟨_, h2⟩; cases h2), fun _ => rfl⟩
      · exact ⟨(by rintro ⟨_, h2⟩; cases h2), fun _ => rfl⟩
      · cases hs

theorem startOp_spec (st : ManagerState) (env : StartEnv) (h : quiescent st) :
    quiescent (startOp st env).state ∧ ∀ s ∈ (startOp st env).statuses, statusOk s := by
  obtain ⟨⟨hnotboth, hurl⟩, hstarting, herr⟩ := h
  by_cases hr : st.status.isRunning = true
  · rw [startOp, if_pos hr]
    exact ⟨⟨⟨hnotboth, hurl⟩, hstarting, herr⟩, by simp⟩
  · rw [startOp, if_neg hr, if_neg (by rw [hstarting]; simp)]
    rw [Bool.not_eq_true] at hr
    have hs1 : statusOk { st.status with isStarting := true } := by
      constructor
      · rintro ⟨h1, _⟩; rw [hr] at h1; cases h1
      · intro hu
        have := hurl hu
        rw [hr] at this; cases this
    have haux := startOpAux_spec st env { st.status with isStarting := true }
      (startTunnelWithRetry (proxyStop st.proxyRunning env.cleanupStopFails).2 env) hs1
    exact ⟨haux.1, haux.2.1⟩

theorem startOp_ok_error_none (st : ManagerState) (env : StartEnv) (h : quiescent st)
    (hok : (startOp st env).result = .ok ()) :
    (startOp st env).state.status.error = none := by
  obtain ⟨⟨hnotboth, hurl⟩, hstarting, herr⟩ := h
  by_cases hr : st.status.isRunning = true
  · rw [startOp, if_pos hr] at hok ⊢
    exact herr hr
  · rw [startOp, if_neg hr, if_neg (by rw [hstarting]; simp)] at hok ⊢
    have hs1 : statusOk { st.status with isStarting := true } := by
      rw [Bool.not_eq_true] at hr
      constructor
      · rintro ⟨h1, _⟩; rw [hr] at h1; cases h1
      · intro hu
        have := hurl hu
        rw [hr] at this; cases this
    exact (startOpAux_spec st env { st.status with isStarting := true }
      (startTunnelWithRetry (proxyStop st.proxyRunning env.cleanupStopFails).2 env) hs1).2.2 hok

theorem stoppedStatus_ok : statusOk stoppedStatus :=
  ⟨(by rintro ⟨h1, _⟩; cases h1), (by intro hu; cases hu rfl)⟩

theorem stopped_quiescent : quiescent stoppedState :=
  ⟨stoppedStatus_ok, rfl, (by intro h1; cases h1)⟩

theorem stopOp_spec (st : ManagerState) (env : StopEnv) (h : quiescent st) :
    quiescent (stopOp st env).state ∧ ∀ s ∈ (stopOp st env).statuses, statusOk s := by
  rw [stopOp]
  by_cases hg : (!(st.hasTunnel && st.status.isRunning) && !st.proxyRunning) = true
  · rw [if_pos hg]
    exact ⟨h, by simp⟩
  · rw [if_neg hg]
    refine ⟨stopped_quiescent, ?_⟩
    intro s hs
    have hs1 : s ∈ [stoppedStatus] := hs
    simp only [List.mem_singleton] at hs1
    rw [hs1]
    exact stoppedStatus_ok

theorem forceCleanupOp_spec (st : ManagerState) (env : CleanupEnv) :
    quiescent (forceCleanupOp st env).state ∧
      ∀ s ∈ (forceCleanupOp st env).statuses, statusOk s := by
  refine ⟨⟨⟨?_, ?_⟩, rfl, ?_⟩, ?_⟩
  · rintro ⟨h1, _⟩; cases h1
  · intro hu; cases hu rfl
  · intro h1; cases h1
  · intro s hs
    have hs1 : s ∈ [stoppedStatus] := hs
    simp only [List.mem_singleton] at hs1
    rw [hs1]
    exact stoppedStatus_ok

theorem gracefulStopOp_spec (st : ManagerState) (env : StopEnv) (h : quiescent st) :
    quiescent (gracefulStopOp st env).state ∧
      ∀ s ∈ (gracefulStopOp st env).statuses, statusOk s := by
  rw [gracefulStopOp]
  by_cases hg : (!(st.hasTunnel && st.status.isRunning) && !st.proxyRunning) = true
  · rw [if_pos hg]
    exact ⟨h, by simp⟩
  · rw [if_neg hg]
    refine ⟨stopped_quiescent, ?_⟩
    intro s hs
    have hs1 : s ∈ [stoppedStatus] := hs
    simp only [List.mem_singleton] at hs1
    rw [hs1]
    exact stoppedStatus_ok

theorem restartOp_spec (st : ManagerState) (env : RestartEnv) (h : quiescent st) :
    quiescent (restartOp st env).state ∧
      ∀ s ∈ (restartOp st env).statuses, statusOk s := by
  have hg := gracefulStopOp_spec st env.stopEnv h
  have hs := startOp_spec (gracefulStopOp st env.stopEnv).state env.startEnv hg.1
  refine ⟨hs.1, ?_⟩
  intro s hmem
  simp only [restartOp, List.mem_append] at hmem
  rcases hmem with hmem | hmem
  · exact hg.2 s hmem
  · exact hs.2 s hmem

theorem runOp_spec (st : ManagerState) (op : ManagerOp) (h : quiescent st) :
    quiescent (runOp st op).state ∧ ∀ s ∈ (runOp st op).statuses, statusOk s := by
  cases op with
  | opStart env => exact startOp_spec st env h
  | opStop env => exact stopOp_spec st env h
  | opRestart env => exact restartOp_spec st env h
  | opForce env => exact forceCleanupOp_spec st env

theorem runOps_spec : ∀ (ops : List ManagerOp) (st : ManagerState), quiescent st →
    quiescent (runOps st ops).state ∧ ∀ s ∈ (runOps st ops).statuses, statusOk s
  | [], st, h => ⟨h, by simp [runOps]⟩
  | op :: ops, st, h => by
    have h1 := runOp_spec st op h
    have h2 := runOps_spec ops (runOp st op).state h1.1
    refine ⟨h2.1, ?_⟩
    intro s hmem
    simp only [runOps, List.mem_append] at hmem
    rcases hmem with hmem | hmem
    · exact h1.2 s hmem
    · exact h2.2 s hmem

theorem initial_quiescent : quiescent initialManagerState :=
  ⟨⟨(by rintro ⟨h1, _⟩; cases h1), (by intro hu; cases hu rfl)⟩, rfl, (by intro h1; cases h1)⟩

/-- C3: along every completed-call trace of start/stop/restart/forceCleanup
from the construction state, every `TunnelStatus` value ever held satisfies
the invariant — `isRunning` and `isStarting` never both true, `url` present
only while `isRunning` — and any `start()` that returns successfully leaves
the `error` field absent. -/
theorem tunnel_status_invariant :
    ∀ ops : List ManagerOp,
      statusOk initialManagerState.status ∧
      (∀ s ∈ (runOps initialManagerState ops).statuses,
        ¬(s.isRunning = true ∧ s.isStarting = true) ∧ (s.url ≠ none → s.isRunning = true)) ∧
      (∀ env : StartEnv,
        (startOp (runOps initialManagerState ops).state env).result = .ok () →
        (startOp (runOps initialManagerState ops).state env).state.status.error = none) := by
  intro ops
  have h := runOps_spec ops initialManagerState initial_quiescent
  exact ⟨initial_quiescent.1, h.2,
    fun env hok => startOp_ok_error_none _ env h.1 hok⟩

/-- A start environment in which every external step succeeds. -/
def happyStartEnv : StartEnv :=
  ⟨none, ⟨.portFree, .up (some "https://bridge.ngrok.app")⟩,
   ⟨.portFree, .up (some "https://bridge.ngrok.app")⟩, false, false, none⟩

/-- Witness for C3: after a failed start followed by a successful one, the
trace facts hold; in particular the successful start leaves no error. -/
theorem tunnel_status_invariant_witness :
    (startOp (runOps initialManagerState []).state happyStartEnv).state.status.error = none :=
  (tunnel_status_invariant []).2.2 happyStartEnv (by rfl)

/-- A start environment in which the port probe finds the port occupied on
both attempts. -/
def portBusyStartEnv : StartEnv :=
  ⟨none, ⟨.probeInUse, .up (some "https://bridge.ngrok.app")⟩,
   ⟨.probeInUse, .up (some "https://bridge.ngrok.app")⟩, false, false, none⟩

/-- C2: on a startup failure the manager does tear the proxy down, does move
to the error status carrying the failure message, and does raise a
`TunnelError` — but when the cause is the proxy's `PORT_IN_USE` condition the
raised error is the GENERIC start-failure variant, not the distinguished
port-conflict variant: `handleStartupFailure` greps the failure MESSAGE for
`PORT_IN_USE`, while `ProxyServer.start` puts that tag only in the error's
`code` field, whose message never contains it. -/
theorem start_port_conflict_raises_generic_error :
    (startOp initialManagerState portBusyStartEnv).result =
      .error (.tunnelErr "Failed to start ngrok tunnel"
        (some (.bridge portInUseMessage "PORT_IN_USE"))) ∧
    strIncludes portInUseMessage "PORT_IN_USE" = false ∧
    (startOp initialManagerState portBusyStartEnv).state.proxyRunning = false ∧
    (startOp initialManagerState portBusyStartEnv).state.hasTunnel = false ∧
    (startOp initialManagerState portBusyStartEnv).state.status =
      { isRunning := false, isStarting := false, url := none,
        error := some portInUseMessage } :=
  ⟨rfl, by decide, rfl, rfl, rfl⟩

/-- C4: whenever at least one resource is active, `stop()` attempts both
legs, always ends Stopped with the tunnel handle cleared, raises the
tunnel-close failure (after both attempts), and never raises a proxy-stop
failure. -/
theorem stop_both_legs_always_stopped :
    ∀ (st : ManagerState) (env : StopEnv),
      ((st.hasTunnel && st.status.isRunning) = true ∨ st.proxyRunning = true) →
      (stopOp st env).state.status = { isRunning := false, isStarting := false } ∧
      (stopOp st env).state.hasTunnel = false ∧
      (stopOp st env).state.proxyRunning = false ∧
      ((st.hasTunnel && st.status.isRunning) = true →
        ManagerEvent.tunnelCloseAttempt ∈ (stopOp st env).events) ∧
      (st.proxyRunning = true → ManagerEvent.proxyStopAttempt ∈ (stopOp st env).events) ∧
      (env.tunnelCloseFails = none → (stopOp st env).result = .ok ()) ∧
      ((st.hasTunnel && st.status.isRunning) = false → (stopOp st env).result = .ok ()) ∧
      (∀ m, env.tunnelCloseFails = some m → (st.hasTunnel && st.status.isRunning) = true →
        (stopOp st env).result =
          .error (.tunnelErr "Failed to stop ngrok tunnel cleanly" (some (.plain m)))) := by
  intro st env hactive
  have hguard : (!(st.hasTunnel && st.status.isRunning) && !st.proxyRunning) = false := by
    rcases hactive with h | h <;> rw [h] <;> simp
  have hg : ¬((!(st.hasTunnel && st.status.isRunning) && !st.proxyRunning) = true) := by
    rw [hguard]; simp
  rw [stopOp, if_neg hg]
  refine ⟨rfl, rfl, rfl, ?_, ?_, ?_, ?_, ?_⟩
  · intro hat
    simp [stopLegEvents, hat]
  · intro hp
    simp [stopLegEvents, hp]
  · intro hn
    cases hat : (st.hasTunnel && st.status.isRunning) <;> simp [stopResult, hn, hat]
  · intro hat
    simp [stopResult, hat]
  · intro m hm hat
    simp [stopResult, hm, hat]

/-- A state in which the tunnel is up and the proxy bound. -/
def runningState : ManagerState :=
  ⟨true, true, { isRunning := true, url := some "https://bridge.ngrok.app" }⟩

/-- Witness for C4: stopping the running bridge under a proxy-stop failure
still reaches Stopped with both legs attempted and no error raised. -/
theorem stop_both_legs_always_stopped_witness :
    (stopOp runningState ⟨none, some "proxy stop failed"⟩).state.status =
      { isRunning := false, isStarting := false } ∧
    ManagerEvent.proxyStopAttempt ∈ (stopOp runningState ⟨none, some "proxy stop failed"⟩).events ∧
    (stopOp runningState ⟨none, some "proxy stop failed"⟩).result = .ok () :=
  have h := stop_both_legs_always_stopped runningState ⟨none, some "proxy stop failed"⟩
    (Or.inl (by rfl))
  ⟨h.1, h.2.2.2.2.1 rfl, h.2.2.2.2.2.1 rfl⟩

/-- A stop environment in which both the tunnel close and the proxy stop
fail. -/
def bothFailStopEnv : StopEnv := ⟨some "tunnel close failed", some "proxy stop failed"⟩

/-- C5: even when BOTH the tunnel-close and the proxy-stop legs fail, the
graceful stop of `restart()` completes without invoking `forceCleanup()`:
its attempt list holds exactly the two stop legs (no `forceCleanupRun`), the
double-failure `TunnelError` is not raised, and the subsequent `start()` runs
— `safeAsync` converts both rejections into fulfilled `Promise.allSettled`
results, so the both-rejected fallback branch is unreachable. -/
theorem restart_double_failure_skips_force_cleanup :
    (gracefulStopOp runningState bothFailStopEnv).result = .ok () ∧
    (gracefulStopOp runningState bothFailStopEnv).events =
      [ManagerEvent.tunnelCloseAttempt, ManagerEvent.proxyStopAttempt] ∧
    (gracefulStopOp runningState bothFailStopEnv).state.status =
      { isRunning := false, isStarting := false } ∧
    (restartOp runningState ⟨bothFailStopEnv, happyStartEnv⟩).events =
      [ManagerEvent.tunnelCloseAttempt, ManagerEvent.proxyStopAttempt] ∧
    (restartOp runningState ⟨bothFailStopEnv, happyStartEnv⟩).result = .ok () :=
  ⟨rfl, rfl, rfl, rfl, rfl⟩

end CursorBridge
